/- Verification of the wiki_provenance validator (src/validator/main.py).

The validator checks an LLM response against a Wikipedia page: it fetches the
page for a topic, chunks it, indexes the chunks in a vector store, and for each
validation unit retrieves the closest chunks and asks a judge LLM whether they
support the unit.

Embedding conventions:
  - Python strings are `List Char` (`Str`); `str.strip` is `pyStrip`,
    `str.lower` is `pyLower` (ASCII-faithful), `str.split("\n")` is
    `splitOnNewline`, `str.startswith` is `startsWith`, `"sep".join` is
    `joinWith`, `s.count(".")` is `countChar '.'`.
  - External collaborators (wikipedia, chromadb, litellm, nltk) are oracle
    parameters passed to the functions that call them.
  - Raised Python exceptions are the `Except PyError` monad; the exact
    exception messages of the source are preserved.
-/
import Mathlib

namespace WikiProv

/-- Python strings, embedded as lists of characters. -/
abbrev Str := List Char

deriving instance DecidableEq for Except

/-- Embedding of Python `str.split("\n")`: split into the (possibly empty)
segments between newline characters.  Always returns a nonempty list. -/
def splitOnNewline : Str → List Str
  | [] => [[]]
  | c :: rest =>
    match splitOnNewline rest with
    | [] => [[c]]
    | g :: gs => if c = '\n' then [] :: g :: gs else (c :: g) :: gs

/-- Embedding of Python `str.lstrip()`: drop leading whitespace. -/
def pyStripLeft (s : Str) : Str := s.dropWhile Char.isWhitespace

/-- Embedding of Python `str.rstrip()`: drop trailing whitespace. -/
def pyStripRight (s : Str) : Str := (s.reverse.dropWhile Char.isWhitespace).reverse

/-- Embedding of Python `str.strip()`: drop leading and trailing whitespace. -/
def pyStrip (s : Str) : Str := pyStripRight (pyStripLeft s)

/-- Embedding of Python `str.lower()` (faithful on ASCII text). -/
def pyLower (s : Str) : Str := s.map Char.toLower

/-- Embedding of Python `s.count(c)` for a single-character needle. -/
def countChar (c : Char) (s : Str) : Nat := (s.filter (fun x => x = c)).length

/-- Embedding of Python `s.startswith(pre)`: `pre` is a prefix of `s`. -/
def startsWith : Str → Str → Bool
  | [], _ => true
  | _ :: _, [] => false
  | a :: as, b :: bs => (a == b) && startsWith as bs

/-- Embedding of Python `sep.join(parts)`. -/
def joinWith (sep : Str) : List Str → Str
  | [] => []
  | [s] => s
  | s :: rest => s ++ sep ++ joinWith sep rest

/-- Python exceptions raised (or propagated) by the validator. -/
inductive PyError where
  /-- `RuntimeError(msg)` -/
  | runtimeError (msg : Str)
  /-- `ValueError(msg)` -/
  | valueError (msg : Str)
  /-- `wikipedia.exceptions.DisambiguationError` escaping uncaught. -/
  | disambiguationError (options : List Str)
  /-- `wikipedia.exceptions.PageError` escaping uncaught. -/
  | pageError
  /-- `IndexError` (e.g. `options[0]` on an empty list). -/
  | indexError
deriving DecidableEq, Repr

/- ------------------------------------------------------------------ -/
/- Chunker: `join_single_sentence_chunks` and `get_page_chunks`       -/
/- (src/validator/main.py lines 99-152).                              -/
/- ------------------------------------------------------------------ -/

/-- One step of the loop body of `join_single_sentence_chunks`: state is
`(new_chunks, paragraph)`. -/
def jsscStep (st : List Str × Str) (chunk : Str) : List Str × Str :=
  if countChar '.' chunk ≤ 1 then
    (st.1, st.2 ++ ' ' :: chunk)
  else
    if st.2 ≠ [] then (st.1 ++ [pyStrip st.2], chunk)
    else (st.1, chunk)

/-- Embedding of `WikiProvenance.join_single_sentence_chunks`
(src/validator/main.py lines 99-127): coalesce consecutive lines containing at
most one period into a space-joined paragraph buffer; a line with two or more
periods flushes the buffer (stripped) and becomes the new buffer; the trailing
buffer is flushed at the end. -/
def join_single_sentence_chunks (chunks : List Str) : List Str :=
  let st := chunks.foldl jsscStep ([], [])
  if st.2 ≠ [] then st.1 ++ [pyStrip st.2] else st.1

/-- The line filter of `get_page_chunks` (src/validator/main.py lines 142-148):
keep lines that do not start with a heading marker and are not blank. -/
def keepChunk (chunk : Str) : Bool :=
  !startsWith ['=', '='] chunk && !startsWith ['=', '=', '='] chunk
    && pyStrip chunk != []

/-- Embedding of `WikiProvenance.get_page_chunks`
(src/validator/main.py lines 129-152): split the page content on newlines,
drop heading and blank lines, then coalesce single-sentence lines. -/
def get_page_chunks (page_content : Str) : List Str :=
  join_single_sentence_chunks ((splitOnNewline page_content).filter keepChunk)

/-- The source's period-count heuristic: a line is "single-sentence" when it
contains at most one period (`chunk.count(".") <= 1`). -/
def isSingleSentence (s : Str) : Bool := decide (countChar '.' s ≤ 1)

/-- Recursive runner equivalent to the fold in `join_single_sentence_chunks`;
`nc` is `new_chunks` and `p` is `paragraph`. -/
def jsscGo (nc : List Str) (p : Str) : List Str → List Str
  | [] => if p ≠ [] then nc ++ [pyStrip p] else nc
  | c :: cs =>
    if countChar '.' c ≤ 1 then jsscGo nc (p ++ ' ' :: c) cs
    else if p ≠ [] then jsscGo (nc ++ [pyStrip p]) c cs
    else jsscGo nc c cs

/-- The text a run of single-sentence lines contributes to the paragraph
buffer: each line is preceded by one space (`paragraph += " " + chunk`). -/
def glueSingles : List Str → Str
  | [] => []
  | x :: xs => ' ' :: (x ++ glueSingles xs)

/-- Spec-side reading of one coalesced group: the lines joined by single
spaces, stripped. -/
def chunkOfGroup (g : List Str) : Str := pyStrip (joinWith [' '] g)

/-- Helper for the spec-side grouping: returns the maximal leading run of
single-sentence lines, and the groups of the remainder (each of which starts
with a line that is not single-sentence). -/
def breakAux : List Str → List Str × List (List Str)
  | [] => ([], [])
  | c :: cs =>
    let r := breakAux cs
    if isSingleSentence c then (c :: r.1, r.2) else ([], (c :: r.1) :: r.2)

/-- Spec-side grouping of lines: a new group begins exactly at every line that
is not single-sentence (two or more periods); a leading run of single-sentence
lines forms the first group. -/
def breakBeforeMulti (cs : List Str) : List (List Str) :=
  let r := breakAux cs
  if r.1 = [] then r.2 else r.1 :: r.2

/- ------------------------------------------------------------------ -/
/- Corpus fetcher: `get_wiki_page` (src/validator/main.py lines 68-97) -/
/- ------------------------------------------------------------------ -/

/-- A fetched Wikipedia page (title and content are all the validator uses). -/
structure WikiPage where
  title : Str
  content : Str
deriving DecidableEq, Repr

/-- Outcome of one `wikipedia.page(title=..., auto_suggest=False)` call:
a page, a `DisambiguationError` with its options, or a `PageError`. -/
inductive FetchOutcome where
  | page (p : WikiPage)
  | disambiguation (options : List Str)
  | pageError
deriving DecidableEq, Repr

/-- Whether a fetch outcome is a `PageError`. -/
def isPageErrorOutcome : FetchOutcome → Bool
  | .pageError => true
  | _ => false

/-- The warning text emitted when a disambiguation error is auto-resolved
(src/validator/main.py lines 81-84). -/
def disambigWarning (opt : Str) : Str :=
  "Resolving disambiguation error with the first option: ".data ++ opt
    ++ " In future, please be more specific.".data

/-- The loop body of `get_wiki_page` over the search results: returns the page
found (if any) together with the warnings emitted, or the propagated
exception.  A `PageError` on the exact-title fetch continues to the next
candidate; a `DisambiguationError` is resolved by fetching the first option,
and that second fetch is NOT guarded: its `DisambiguationError` or `PageError`
propagates out of the loop. -/
def wikiPageLoop (fetch : Str → FetchOutcome) :
    List Str → Except PyError (Option WikiPage × List Str)
  | [] => .ok (none, [])
  | search_result :: rest =>
    match fetch search_result with
    | .page p => .ok (some p, [])
    | .disambiguation options =>
      match options with
      | [] => .error .indexError
      | o :: _ =>
        match fetch o with
        | .page p => .ok (some p, [disambigWarning o])
        | .disambiguation os => .error (.disambiguationError os)
        | .pageError => .error .pageError
    | .pageError => wikiPageLoop fetch rest

/-- The `RuntimeError` message when no candidate resolves
(src/validator/main.py lines 92-96). -/
def wikiNotFoundMsg (topic_name : Str) : Str :=
  "Could not find a valid Wikipedia page for ".data ++ topic_name ++ ". ".data
    ++ "Please try with a different topic.".data

/-- Embedding of `WikiProvenance.get_wiki_page` (src/validator/main.py lines
68-97).  `search` is the `wikipedia.search` oracle (called with `results=3`),
`fetch` is the `wikipedia.page` oracle.  Returns the page and the warnings
emitted, or the raised exception. -/
def get_wiki_page (search : Str → Nat → List Str) (fetch : Str → FetchOutcome)
    (topic_name : Str) : Except PyError (WikiPage × List Str) :=
  let search_results := search topic_name 3
  match wikiPageLoop fetch search_results with
  | .error e => .error e
  | .ok (none, _) => .error (.runtimeError (wikiNotFoundMsg topic_name))
  | .ok (some p, warnings) => .ok (p, warnings)

/- ------------------------------------------------------------------ -/
/- Passage index: namespace key and `get_closest_chunks`              -/
/- (src/validator/main.py lines 58-62 and 171-192).                   -/
/- ------------------------------------------------------------------ -/

/-- Embedding of Python `str(n)` on integers. -/
def pyStrOfInt (n : Int) : Str := (toString n).data

/-- Embedding of the collection-name derivation in `WikiProvenance.__init__`
(src/validator/main.py lines 58-62): `f"wiki_{str(hash(self.topic_name))}"`.
`pyHash` is the process's string-hash oracle (fixed for the process). -/
def collection_name (pyHash : Str → Int) (topic_name : Str) : Str :=
  "wiki_".data ++ pyStrOfInt (pyHash topic_name)

/-- The result of `collection.query`: the `"documents"` field, a list holding
one ranked list of documents per query text. -/
structure QueryResult where
  documents : List (List Str)
deriving DecidableEq, Repr

/-- Embedding of `WikiProvenance.get_closest_chunks`
(src/validator/main.py lines 171-192): query the collection with the response
as the single query text and `n_results=3`; raise `ValueError` if the result's
`"documents"` list is falsy, else return its first element. -/
def get_closest_chunks (query : List Str → Nat → QueryResult) (response : Str) :
    Except PyError (List Str) :=
  match (query [response] 3).documents with
  | [] => .error (.valueError
      "Could not find any matching paragraphs in the Wikipedia page.".data)
  | d :: _ => .ok d

/-- Modelled from the spec: the vector index service's `query` (the chromadb
collection, outside this repository).  Its result holds one ranked list of
documents per query text — `rank t docs` is the engine's similarity ranking
oracle — and only stored documents can be returned, truncated to `n_results`.
The per-query-text nesting is confirmed by the source itself, which reads
`results["documents"][0]` to obtain the chunk list for its single query
text. -/
def collection_query (rank : Str → List Str → List Str) (docs : List Str)
    (query_texts : List Str) (n_results : Nat) : QueryResult :=
  ⟨query_texts.map (fun t => ((rank t docs).filter (fun d => docs.contains d)).take n_results)⟩

/- ------------------------------------------------------------------ -/
/- Entailment judge: `get_prompt` and `get_evaluation`                -/
/- (src/validator/main.py lines 194-253).                             -/
/- ------------------------------------------------------------------ -/

/-- The fixed part of the prompt template before the claim
(src/validator/main.py lines 205-211). -/
def promptBeforeClaim : Str :=
  ("Instructions:\n        As an oracle of logic and intelligence, your task is to determine whether the following \x27Contexts\x27 support the \x27Claim\x27.\n        Please answer the question with just a \x27Yes\x27 or a \x27No\x27. Any other text is strictly forbidden.\n        You\x27ll be evaluated based on how well you understand the relationship between the contexts and the claim \n        and how well you follow the instructions to answer with a \x27Yes\x27 or a \x27No\x27.\n\n        Claim:\n        ").data

/-- The part of the prompt template between the claim and the contexts. -/
def promptBetween : Str := "\n\n        Contexts:\n        ".data

/-- The part of the prompt template after the contexts. -/
def promptAfter : Str := "\n\n        Your Answer:\n        \n        ".data

/-- Embedding of `WikiProvenance.get_prompt` (src/validator/main.py lines
194-222): the template embeds the claim verbatim and the contexts joined by
newlines. -/
def get_prompt (response : Str) (chunks : List Str) : Str :=
  promptBeforeClaim ++ response ++ promptBetween
    ++ joinWith ['\n'] chunks ++ promptAfter

/-- Embedding of `WikiProvenance.get_evaluation` (src/validator/main.py lines
224-253).  `llm` is the `litellm.completion` oracle composed with the message
content extraction (its `.error` is any exception raised there, wrapped in a
`RuntimeError` by the source); the response text is stripped and lowercased,
and anything other than `"yes"`/`"no"` raises `ValueError`. -/
def get_evaluation (llm : Str → Except Str Str) (query : List Str → Nat → QueryResult)
    (response : Str) : Except PyError Str :=
  match get_closest_chunks query response with
  | .error e => .error e
  | .ok closest_chunks =>
    match llm (get_prompt response closest_chunks) with
    | .error e => .error (.runtimeError ("Error getting response from the LLM: ".data ++ e))
    | .ok content =>
      let val_response := pyLower (pyStrip content)
      if val_response ≠ "yes".data ∧ val_response ≠ "no".data then
        .error (.valueError "Received an invalid evaluation response from the LLM.".data)
      else .ok val_response

/-- Whether a `get_evaluation` result is the supported verdict `"yes"`. -/
def isYes : Except PyError Str → Bool
  | .ok v => v == "yes".data
  | .error _ => false

/- ------------------------------------------------------------------ -/
/- Verifier: `validate_each_sentence`, `validate_full_text`,          -/
/- `validate` (src/validator/main.py lines 255-313).                  -/
/- ------------------------------------------------------------------ -/

/-- The validation outcome returned to the hosting framework: `PassResult`
carries only the metadata; `FailResult` carries metadata, an error message and
a fix value. -/
inductive ValidationResult (M : Type) where
  | PassResult (metadata : M)
  | FailResult (metadata : M) (error_message : Str) (fix_value : Str)
deriving DecidableEq, Repr

/-- The loop of `validate_each_sentence` (src/validator/main.py lines
262-269): evaluate each sentence in order, appending it to the supported or
unsupported accumulator; an exception from `get_evaluation` aborts the loop
and propagates. -/
def sentenceLoop (ge : Str → Except PyError Str) :
    List Str → List Str → List Str → Except PyError (List Str × List Str)
  | [], unsupported, supported => .ok (unsupported, supported)
  | s :: rest, unsupported, supported =>
    match ge s with
    | .error e => .error e
    | .ok v =>
      if v = "yes".data then sentenceLoop ge rest unsupported (supported ++ [s])
      else sentenceLoop ge rest (unsupported ++ [s]) supported

/-- Embedding of `WikiProvenance.validate_each_sentence`
(src/validator/main.py lines 255-283).  `sent_tokenize` is the nltk sentence
tokenizer oracle. -/
def validate_each_sentence {M : Type} (llm : Str → Except Str Str)
    (query : List Str → Nat → QueryResult) (sent_tokenize : Str → List Str)
    (value : Str) (metadata : M) : Except PyError (ValidationResult M) :=
  match sentenceLoop (get_evaluation llm query) (sent_tokenize value) [] [] with
  | .error e => .error e
  | .ok (unsupported, supported) =>
    if unsupported ≠ [] then
      .ok (.FailResult metadata
        ("None of the following sentences in the response are supported by the provided context:".data
          ++ '\n' :: ("- ".data ++ joinWith "\n- ".data unsupported))
        (joinWith ['\n'] supported))
    else .ok (.PassResult metadata)

/-- Embedding of `WikiProvenance.validate_full_text`
(src/validator/main.py lines 285-300). -/
def validate_full_text {M : Type} (llm : Str → Except Str Str)
    (query : List Str → Nat → QueryResult) (value : Str) (metadata : M) :
    Except PyError (ValidationResult M) :=
  match get_evaluation llm query value with
  | .error e => .error e
  | .ok val_response =>
    if val_response = "no".data then
      .ok (.FailResult metadata
        "The response is not supported by the provided context.".data
        [])
    else .ok (.PassResult metadata)

/-- The `ValueError` message for an unsupported validation method
(src/validator/main.py lines 310-313); the two adjacent Python string
literals concatenate with no space between `supported.` and `Please`. -/
def invalidMethodMsg (validation_method : Str) : Str :=
  "Validation method ".data ++ validation_method
    ++ " is not supported.".data
    ++ "Please use either \x27sentence\x27 or \x27full\x27.".data

/-- Embedding of `WikiProvenance.validate` (src/validator/main.py lines
302-313): dispatch on `validation_method`; any other mode raises a
`ValueError` naming the mode and the two valid options. -/
def validate {M : Type} (llm : Str → Except Str Str)
    (query : List Str → Nat → QueryResult) (sent_tokenize : Str → List Str)
    (validation_method : Str) (value : Str) (metadata : M) :
    Except PyError (ValidationResult M) :=
  if validation_method = "sentence".data then
    validate_each_sentence llm query sent_tokenize value metadata
  else if validation_method = "full".data then
    validate_full_text llm query value metadata
  else
    .error (.valueError (invalidMethodMsg validation_method))

/- Concrete oracles used by witnesses. -/

/-- A query oracle whose result has one empty ranked list. -/
def okQuery : List Str → Nat → QueryResult := fun _ _ => ⟨[[]]⟩

/-- A judge backend that always answers with the same text. -/
def llmConst (resp : Str) : Str → Except Str Str := fun _ => Except.ok resp

/-- A judge backend that always fails (transport error). -/
def llmDown : Str → Except Str Str := fun _ => Except.error "backend unreachable".data

/-- A search oracle returning two candidate titles. -/
def searchW : Str → Nat → List Str := fun _ _ => ["A".data, "B".data]

/-- A fetch oracle whose first candidate hits a disambiguation whose first
option does not exist, while the second candidate would succeed. -/
def fetchW : Str → FetchOutcome := fun t =>
  if t = "A".data then .disambiguation ["X".data]
  else if t = "X".data then .pageError
  else .page ⟨"B".data, "Bravo content.".data⟩

/- Sanity checks of the chunker embedding on concrete inputs. -/

example : get_page_chunks "A b. C d. E.\nshort one\nanother short".data
    = ["A b. C d. E. short one another short".data] := by decide

example : get_page_chunks "== Head ==\nA b. C d.\n\nshort".data
    = ["A b. C d. short".data] := by decide

example : join_single_sentence_chunks ["one".data, "two".data, "a. b.".data, "tail".data]
    = ["one two".data, "a. b. tail".data] := by decide

/- ------------------------------------------------------------------ -/
/- Lemmas: the chunker's coalescing loop computes the spec grouping   -/
/- ------------------------------------------------------------------ -/

lemma joinWith_space_cons (x : Str) (xs : List Str) :
    joinWith [' '] (x :: xs) = x ++ glueSingles xs := by
  induction xs generalizing x with
  | nil => simp [joinWith, glueSingles]
  | cons y ys ih =>
    simp only [joinWith, glueSingles]
    rw [ih]
    simp [List.append_assoc]

lemma ne_nil_of_not_single {c : Str} (h : ¬ countChar '.' c ≤ 1) : c ≠ [] := by
  intro hc
  subst hc
  simp [countChar] at h

lemma pyStripLeft_space_cons (s : Str) : pyStripLeft (' ' :: s) = pyStripLeft s := by
  have hw : Char.isWhitespace ' ' = true := by decide
  simp [pyStripLeft, List.dropWhile_cons, hw]

lemma pyStrip_space_cons (s : Str) : pyStrip (' ' :: s) = pyStrip s := by
  simp [pyStrip, pyStripLeft_space_cons]

lemma jssc_go_spec (cs : List Str) : ∀ (nc : List Str) (p : Str),
    jsscGo nc p cs =
      (if (cs.foldl jsscStep (nc, p)).2 ≠ [] then
        (cs.foldl jsscStep (nc, p)).1 ++ [pyStrip (cs.foldl jsscStep (nc, p)).2]
      else (cs.foldl jsscStep (nc, p)).1) := by
  induction cs with
  | nil => intro nc p; rfl
  | cons c cs ih =>
    intro nc p
    by_cases h1 : countChar '.' c ≤ 1
    · simpa [jsscGo, jsscStep, h1] using ih nc (p ++ ' ' :: c)
    · by_cases h2 : p = []
      · simpa [jsscGo, jsscStep, h1, h2] using ih nc c
      · simpa [jsscGo, jsscStep, h1, h2] using ih (nc ++ [pyStrip p]) c

lemma join_eq_jsscGo (chunks : List Str) :
    join_single_sentence_chunks chunks = jsscGo [] [] chunks := by
  rw [jssc_go_spec]
  rfl

lemma jsscGo_breakAux (cs : List Str) : ∀ (nc : List Str) (p : Str), p ≠ [] →
    jsscGo nc p cs
      = nc ++ pyStrip (p ++ glueSingles (breakAux cs).1)
          :: ((breakAux cs).2).map chunkOfGroup := by
  induction cs with
  | nil =>
    intro nc p hp
    simp [jsscGo, breakAux, glueSingles, hp]
  | cons c cs ih =>
    intro nc p hp
    by_cases h1 : countChar '.' c ≤ 1
    · have hs : isSingleSentence c = true := by simp [isSingleSentence, h1]
      have h2 := ih nc (p ++ ' ' :: c) (by simp)
      simp only [jsscGo, h1, if_true, breakAux, hs, glueSingles, if_pos] at h2 ⊢
      rw [h2]
      simp [List.append_assoc]
    · have hs : isSingleSentence c = false := by simp [isSingleSentence, h1]
      have hc : c ≠ [] := ne_nil_of_not_single h1
      have h2 := ih (nc ++ [pyStrip p]) c hc
      simp only [jsscGo, h1, if_false, hp, ne_eq, not_false_eq_true, if_true, breakAux,
        hs, glueSingles] at h2 ⊢
      rw [h2]
      simp [chunkOfGroup, joinWith_space_cons]

lemma join_single_sentence_chunks_eq_groups (chunks : List Str) :
    join_single_sentence_chunks chunks = (breakBeforeMulti chunks).map chunkOfGroup := by
  rw [join_eq_jsscGo]
  cases chunks with
  | nil => rfl
  | cons c cs =>
    by_cases h1 : countChar '.' c ≤ 1
    · have hs : isSingleSentence c = true := by simp [isSingleSentence, h1]
      have h2 := jsscGo_breakAux cs [] (' ' :: c) (by simp)
      simp only [jsscGo, h1, if_true, List.nil_append] at h2 ⊢
      rw [h2]
      simp only [breakBeforeMulti, breakAux, hs, if_true, List.cons_append,
        List.nil_append]
      have hpend : (c :: (breakAux cs).1) ≠ [] := by simp
      simp [hpend, chunkOfGroup, joinWith_space_cons, pyStrip_space_cons,
        List.cons_append]
    · have hs : isSingleSentence c = false := by simp [isSingleSentence, h1]
      have hc : c ≠ [] := ne_nil_of_not_single h1
      have h2 := jsscGo_breakAux cs [] c hc
      simp only [jsscGo, h1, if_false, ne_eq, not_true_eq_false, if_neg,
        List.nil_append] at h2 ⊢
      rw [h2]
      simp [breakBeforeMulti, breakAux, hs, chunkOfGroup, joinWith_space_cons]

/-- C5 claim.  In the chunker's coalescing step, for every sequence of cleaned
lines, the output is exactly one chunk per group, where groups are obtained by
breaking before every line that is not single-sentence (two or more periods) —
so consecutive single-sentence lines (at most one period) are coalesced with
the running buffer, a non-single-sentence line terminates and flushes any
running buffer and begins the next chunk by itself, and the trailing buffer is
flushed as the final chunk; each emitted chunk is the group's lines joined by
single spaces and stripped. -/
theorem join_single_sentence_chunks_grouping_spec (chunks : List Str) :
    join_single_sentence_chunks chunks = (breakBeforeMulti chunks).map chunkOfGroup :=
  join_single_sentence_chunks_eq_groups chunks

/- ------------------------------------------------------------------ -/
/- Lemmas: whitespace stripping and prefixes                          -/
/- ------------------------------------------------------------------ -/

lemma pyStripLeft_eq_nil_iff (s : Str) :
    pyStripLeft s = [] ↔ ∀ c ∈ s, Char.isWhitespace c = true := by
  induction s with
  | nil => simp [pyStripLeft]
  | cons a s ih =>
    by_cases ha : Char.isWhitespace a
    · simp only [pyStripLeft, List.dropWhile_cons, ha, if_true] at ih ⊢
      constructor
      · intro h c hc
        rcases List.mem_cons.mp hc with rfl | hc2
        · exact ha
        · exact ih.mp h c hc2
      · intro h
        exact ih.mpr (fun c hc => h c (List.mem_cons_of_mem _ hc))
    · simp only [pyStripLeft, List.dropWhile_cons, ha, if_false]
      constructor
      · intro h; cases h
      · intro h
        exact absurd (h a (List.mem_cons_self a s)) (by simpa using ha)

lemma mem_of_mem_pyStripLeft {c : Char} {s : Str} (hc : c ∈ pyStripLeft s) : c ∈ s := by
  induction s with
  | nil => exact hc
  | cons a s ih =>
    by_cases ha : Char.isWhitespace a
    · simp only [pyStripLeft, List.dropWhile_cons, ha, if_true] at hc
      exact List.mem_cons_of_mem _ (ih hc)
    · simpa only [pyStripLeft, List.dropWhile_cons, ha, if_false] using hc

lemma pyStripLeft_head_not_ws {s : Str} {d : Char} {t : Str}
    (h : pyStripLeft s = d :: t) : Char.isWhitespace d = false := by
  induction s with
  | nil => cases h
  | cons a s ih =>
    by_cases ha : Char.isWhitespace a
    · simp only [pyStripLeft, List.dropWhile_cons, ha, if_true] at h
      exact ih h
    · simp only [pyStripLeft, List.dropWhile_cons, ha, if_false] at h
      cases h
      simpa using ha

lemma pyStripRight_eq_nil_iff (s : Str) :
    pyStripRight s = [] ↔ ∀ c ∈ s, Char.isWhitespace c = true := by
  unfold pyStripRight
  rw [List.reverse_eq_nil_iff]
  have := pyStripLeft_eq_nil_iff s.reverse
  simp only [pyStripLeft] at this
  rw [this]
  constructor
  · intro h c hc; exact h c (List.mem_reverse.mpr hc)
  · intro h c hc; exact h c (List.mem_reverse.mp hc)

lemma dropWhile_exists_append (p : Char → Bool) (r : Str) :
    ∃ u, u ++ r.dropWhile p = r := by
  induction r with
  | nil => exact ⟨[], rfl⟩
  | cons a r ih =>
    by_cases ha : p a
    · obtain ⟨u, hu⟩ := ih
      exact ⟨a :: u, by simp [List.dropWhile_cons, ha, hu]⟩
    · exact ⟨[], by simp [List.dropWhile_cons, ha]⟩

lemma pyStripRight_exists_append (s : Str) : ∃ t, pyStripRight s ++ t = s := by
  obtain ⟨u, hu⟩ := dropWhile_exists_append Char.isWhitespace s.reverse
  refine ⟨u.reverse, ?_⟩
  have h2 := congrArg List.reverse hu
  simpa [pyStripRight, List.reverse_append] using h2

lemma pyStrip_eq_nil_iff (s : Str) :
    pyStrip s = [] ↔ ∀ c ∈ s, Char.isWhitespace c = true := by
  unfold pyStrip
  rw [pyStripRight_eq_nil_iff]
  constructor
  · intro h c hc
    by_contra hw
    have hw2 : Char.isWhitespace c = false := by
      cases h2 : Char.isWhitespace c
      · rfl
      · exact absurd h2 hw
    have hmem : c ∈ pyStripLeft s := by
      clear h hw
      induction s with
      | nil => cases hc
      | cons a s ih =>
        by_cases ha : Char.isWhitespace a
        · simp only [pyStripLeft, List.dropWhile_cons, ha, if_true]
          rcases List.mem_cons.mp hc with rfl | hc2
          · rw [ha] at hw2; cases hw2
          · exact ih hc2
        · simpa only [pyStripLeft, List.dropWhile_cons, ha, if_false] using hc
    rw [h c hmem] at hw2
    cases hw2
  · intro h c hc
    exact h c (mem_of_mem_pyStripLeft hc)

lemma pyStrip_not_all_ws {z : Str} (h : ∃ c ∈ z, Char.isWhitespace c = false) :
    ∃ d ∈ pyStrip z, Char.isWhitespace d = false := by
  obtain ⟨c, hc, hw⟩ := h
  have hne : pyStripLeft z ≠ [] := by
    intro h0
    rw [(pyStripLeft_eq_nil_iff z).mp h0 c hc] at hw
    cases hw
  obtain ⟨d, t, hdt⟩ : ∃ d t, pyStripLeft z = d :: t := by
    cases h0 : pyStripLeft z with
    | nil => exact absurd h0 hne
    | cons d t => exact ⟨d, t, rfl⟩
  have hdw : Char.isWhitespace d = false := pyStripLeft_head_not_ws hdt
  have hsr : pyStrip z = pyStripRight (d :: t) := by rw [pyStrip, hdt]
  have hne2 : pyStripRight (d :: t) ≠ [] := by
    intro h0
    rw [(pyStripRight_eq_nil_iff _).mp h0 d (List.mem_cons_self d t)] at hdw
    cases hdw
  obtain ⟨e, t2, het⟩ : ∃ e t2, pyStripRight (d :: t) = e :: t2 := by
    cases h0 : pyStripRight (d :: t) with
    | nil => exact absurd h0 hne2
    | cons e t2 => exact ⟨e, t2, rfl⟩
  obtain ⟨u, hu⟩ := pyStripRight_exists_append (d :: t)
  rw [het] at hu
  have hed : e = d := by
    rw [List.cons_append] at hu
    injection hu
  exact ⟨d, by rw [hsr, het, ← hed]; exact List.mem_cons_self e t2, hdw⟩

lemma pyStripLeft_append_of_ne {l : Str} (h : pyStripLeft l ≠ []) (y : Str) :
    pyStripLeft (l ++ y) = pyStripLeft l ++ y := by
  induction l with
  | nil => exact absurd rfl h
  | cons a l ih =>
    by_cases ha : Char.isWhitespace a
    · simp only [pyStripLeft, List.dropWhile_cons, ha, if_true, List.cons_append] at h ⊢
      exact ih h
    · simp [pyStripLeft, List.dropWhile_cons, ha]

lemma startsWith_append {p u : Str} (h : startsWith p u = true) (v : Str) :
    startsWith p (u ++ v) = true := by
  induction p generalizing u with
  | nil => rfl
  | cons a as ih =>
    cases u with
    | nil => cases h
    | cons b bs =>
      simp only [startsWith, List.cons_append, Bool.and_eq_true] at h ⊢
      exact ⟨h.1, ih h.2⟩

lemma mem_joinWith_of_mem {c : Char} {x : Str} {g : List Str}
    (hx : x ∈ g) (hc : c ∈ x) : c ∈ joinWith [' '] g := by
  induction g with
  | nil => cases hx
  | cons y ys ih =>
    rcases List.mem_cons.mp hx with rfl | hx2
    · cases ys with
      | nil => exact hc
      | cons z zs =>
        simp only [joinWith, List.append_assoc, List.mem_append]
        exact Or.inl hc
    · cases ys with
      | nil => cases hx2
      | cons z zs =>
        simp only [joinWith, List.append_assoc, List.mem_append]
        exact Or.inr (Or.inr (ih hx2))

lemma breakAux_groups_spec (cs : List Str) :
    (∀ x ∈ (breakAux cs).1, x ∈ cs) ∧
      ∀ g ∈ (breakAux cs).2, g ≠ [] ∧ ∀ x ∈ g, x ∈ cs := by
  induction cs with
  | nil => simp [breakAux]
  | cons c cs ih =>
    obtain ⟨ih1, ih2⟩ := ih
    by_cases hs : isSingleSentence c = true
    · simp only [breakAux, hs, if_true]
      constructor
      · intro x hx
        rcases List.mem_cons.mp hx with rfl | hx2
        · exact List.mem_cons_self _ _
        · exact List.mem_cons_of_mem _ (ih1 x hx2)
      · intro g hg
        obtain ⟨hne, hmem⟩ := ih2 g hg
        exact ⟨hne, fun x hx => List.mem_cons_of_mem _ (hmem x hx)⟩
    · simp only [breakAux, if_neg hs]
      constructor
      · intro x hx; cases hx
      · intro g hg
        rcases List.mem_cons.mp hg with rfl | hg2
        · refine ⟨by simp, ?_⟩
          intro x hx
          rcases List.mem_cons.mp hx with rfl | hx2
          · exact List.mem_cons_self _ _
          · exact List.mem_cons_of_mem _ (ih1 x hx2)
        · obtain ⟨hne, hmem⟩ := ih2 g hg2
          exact ⟨hne, fun x hx => List.mem_cons_of_mem _ (hmem x hx)⟩

lemma breakBeforeMulti_groups {cs : List Str} {g : List Str}
    (hg : g ∈ breakBeforeMulti cs) : g ≠ [] ∧ ∀ x ∈ g, x ∈ cs := by
  obtain ⟨h1, h2⟩ := breakAux_groups_spec cs
  simp only [breakBeforeMulti] at hg
  by_cases hp : (breakAux cs).1 = []
  · rw [if_pos hp] at hg
    exact h2 g hg
  · rw [if_neg hp] at hg
    rcases List.mem_cons.mp hg with rfl | hg2
    · exact ⟨hp, h1⟩
    · exact h2 g hg2

lemma keepChunk_spec {x : Str} (h : keepChunk x = true) :
    startsWith ['=', '='] x = false ∧ pyStrip x ≠ [] := by
  simp only [keepChunk, Bool.and_eq_true, Bool.not_eq_true', bne_iff_ne, ne_eq] at h
  exact ⟨h.1.1, h.2⟩

/-- C6 counterexample.  The claim "no emitted chunk begins with a heading
marker" fails: a line whose heading marker is preceded by whitespace escapes
the `startswith("==")` filter, and the final strip exposes the marker. -/
theorem get_page_chunks_heading_counterexample :
    "== History ==".data ∈ get_page_chunks " == History ==".data ∧
      startsWith ['=', '='] "== History ==".data = true := by
  decide

/-- C6 amended.  For every input document text, no chunk emitted by the
chunker is empty after trimming; and provided no input line consists of
whitespace followed by a heading marker (i.e. any line whose left-stripped
form starts with `==` already starts with `==`), no emitted chunk begins with
a heading marker of level 2 or greater. -/
theorem get_page_chunks_clean_amended (text : Str) :
    (∀ chunk ∈ get_page_chunks text, pyStrip chunk ≠ []) ∧
    ((∀ line ∈ splitOnNewline text,
        startsWith ['=', '='] (pyStripLeft line) = true →
          startsWith ['=', '='] line = true) →
      ∀ chunk ∈ get_page_chunks text, startsWith ['=', '='] chunk = false) := by
  have hchunks : get_page_chunks text
      = (breakBeforeMulti ((splitOnNewline text).filter keepChunk)).map chunkOfGroup := by
    rw [get_page_chunks, join_single_sentence_chunks_eq_groups]
  constructor
  · intro chunk hc
    rw [hchunks] at hc
    obtain ⟨g, hg, rfl⟩ := List.mem_map.mp hc
    obtain ⟨hne, hmem⟩ := breakBeforeMulti_groups hg
    obtain ⟨l, rest, rfl⟩ := List.exists_cons_of_ne_nil hne
    have hl := hmem l (List.mem_cons_self _ _)
    have hkeep := (List.mem_filter.mp hl).2
    obtain ⟨-, hstrip⟩ := keepChunk_spec hkeep
    have hex : ∃ c ∈ l, Char.isWhitespace c = false := by
      by_contra hall
      push_neg at hall
      refine hstrip ((pyStrip_eq_nil_iff l).mpr (fun c hc2 => ?_))
      have := hall c hc2
      cases h2 : Char.isWhitespace c
      · exact absurd h2 this
      · rfl
    obtain ⟨d, hd, hdw⟩ := hex
    have hdj : d ∈ joinWith [' '] (l :: rest) :=
      mem_joinWith_of_mem (List.mem_cons_self _ _) hd
    obtain ⟨e, he, hew⟩ := pyStrip_not_all_ws ⟨d, hdj, hdw⟩
    intro h0
    rw [pyStrip_eq_nil_iff] at h0
    rw [h0 e he] at hew
    cases hew
  · intro hlines chunk hc
    rw [hchunks] at hc
    obtain ⟨g, hg, rfl⟩ := List.mem_map.mp hc
    obtain ⟨hne, hmem⟩ := breakBeforeMulti_groups hg
    obtain ⟨l, rest, rfl⟩ := List.exists_cons_of_ne_nil hne
    have hl := hmem l (List.mem_cons_self _ _)
    have hlmem := (List.mem_filter.mp hl).1
    have hkeep := (List.mem_filter.mp hl).2
    obtain ⟨hhead, hstrip⟩ := keepChunk_spec hkeep
    cases hswb : startsWith ['=', '='] (chunkOfGroup (l :: rest)) with
    | false => rfl
    | true =>
      exfalso
      have hslne : pyStripLeft l ≠ [] := by
        intro h0
        exact hstrip ((pyStrip_eq_nil_iff l).mpr ((pyStripLeft_eq_nil_iff l).mp h0))
      have hsw2 : startsWith ['=', '='] (pyStripLeft l ++ glueSingles rest) = true := by
        have h3 : startsWith ['=', '='] (pyStrip (l ++ glueSingles rest)) = true := by
          rw [chunkOfGroup, joinWith_space_cons] at hswb
          exact hswb
        have h4 : pyStrip (l ++ glueSingles rest)
            = pyStripRight (pyStripLeft l ++ glueSingles rest) := by
          rw [pyStrip, pyStripLeft_append_of_ne hslne]
        rw [h4] at h3
        obtain ⟨u2, hu2⟩ := pyStripRight_exists_append (pyStripLeft l ++ glueSingles rest)
        rw [← hu2]
        exact startsWith_append h3 u2
      obtain ⟨d, t, hdt⟩ : ∃ d t, pyStripLeft l = d :: t := by
        cases h0 : pyStripLeft l with
        | nil => exact absurd h0 hslne
        | cons d t => exact ⟨d, t, rfl⟩
      rw [hdt] at hsw2
      cases t with
      | nil =>
        cases rest with
        | nil => simp [glueSingles, startsWith] at hsw2
        | cons r rs =>
          have hsp : ('=' == ' ') = false := by decide
          simp [glueSingles, startsWith, hsp] at hsw2
      | cons c2 t2 =>
        have hswsl : startsWith ['=', '='] (pyStripLeft l) = true := by
          rw [hdt]
          simp only [List.cons_append, startsWith, Bool.and_eq_true] at hsw2 ⊢
          exact ⟨hsw2.1, hsw2.2.1, trivial⟩
        have hswl := hlines l hlmem hswsl
        rw [hswl] at hhead
        cases hhead

/-- C6 amended, witness: a concrete two-line text whose lines have no
whitespace-preceded heading markers; all chunks are nonblank and none begins
with a heading marker. -/
theorem get_page_chunks_clean_amended_witness :
    (∀ chunk ∈ get_page_chunks "Alpha beta. Gamma delta. Eps.\nshort line".data,
        pyStrip chunk ≠ []) ∧
      (∀ line ∈ splitOnNewline "Alpha beta. Gamma delta. Eps.\nshort line".data,
        startsWith ['=', '='] (pyStripLeft line) = true →
          startsWith ['=', '='] line = true) ∧
      (∀ chunk ∈ get_page_chunks "Alpha beta. Gamma delta. Eps.\nshort line".data,
        startsWith ['=', '='] chunk = false) :=
  ⟨(get_page_chunks_clean_amended "Alpha beta. Gamma delta. Eps.\nshort line".data).1,
    by decide,
    (get_page_chunks_clean_amended "Alpha beta. Gamma delta. Eps.\nshort line".data).2
      (by decide)⟩

/- ------------------------------------------------------------------ -/
/- Namespace key derivation (C8)                                      -/
/- ------------------------------------------------------------------ -/

/-- C8 claim.  Constructing a verifier twice with the same topic string
derives the same index namespace key: within one process the string-hash
oracle `pyHash` is a fixed function, so the derived collection name
`wiki_<str(hash(topic))>` depends only on the topic string. -/
theorem collection_name_deterministic (pyHash : Str → Int) (t1 t2 : Str)
    (h : t1 = t2) : collection_name pyHash t1 = collection_name pyHash t2 := by
  rw [h]

/-- C8 witness: two constructions with the topic `"Apple company"` (and a
concrete hash oracle) derive the same key. -/
theorem collection_name_deterministic_witness :
    "Apple company".data = "Apple company".data ∧
      collection_name (fun s => (s.length : Int)) "Apple company".data
        = collection_name (fun s => (s.length : Int)) "Apple company".data :=
  ⟨rfl, collection_name_deterministic (fun s => (s.length : Int)) _ _ rfl⟩

/- ------------------------------------------------------------------ -/
/- Passage index query on an empty namespace (C3)                     -/
/- ------------------------------------------------------------------ -/

lemma filter_contains_nil (l : List Str) :
    l.filter (fun d => ([] : List Str).contains d) = [] := by
  induction l with
  | nil => rfl
  | cons a l ih => simp [List.filter_cons, List.contains, ih]

/-- C3 evaluation.  Against the modelled index engine, `get_closest_chunks`
never raises: the engine returns exactly one ranked list per query text, so
the source's guard `if not results["documents"]` is never true.  In
particular, when the namespace holds no documents (`docs = []`) the function
returns `.ok []` — an empty chunk list that is handed to the judge — instead
of raising the claimed `EmptyCorpus` error. -/
theorem get_closest_chunks_no_empty_corpus_error (rank : Str → List Str → List Str)
    (docs : List Str) (response : Str) :
    get_closest_chunks (collection_query rank docs) response
        = .ok (((rank response docs).filter (fun d => docs.contains d)).take 3) ∧
      get_closest_chunks (collection_query rank []) response = .ok [] := by
  constructor
  · rfl
  · show Except.ok (((rank response []).filter
        (fun d => ([] : List Str).contains d)).take 3) = _
    rw [filter_contains_nil]
    rfl

/- ------------------------------------------------------------------ -/
/- Sentence mode on empty input (C7)                                  -/
/- ------------------------------------------------------------------ -/

/-- C7 claim.  In sentence mode, an empty input string — for which the
tokenizer yields zero sentences — produces a Pass outcome (which carries no
fix value, i.e. nothing is removed), for EVERY judge backend and index oracle:
in particular no judge call can influence the result, so none is made. -/
theorem validate_each_sentence_empty_input {M : Type} (llm : Str → Except Str Str)
    (query : List Str → Nat → QueryResult) (sent_tokenize : Str → List Str)
    (metadata : M) (h : sent_tokenize "".data = []) :
    validate_each_sentence llm query sent_tokenize "".data metadata
      = .ok (.PassResult metadata) := by
  simp [validate_each_sentence, h, sentenceLoop]

/-- C7 witness: with a tokenizer returning no sentences on the empty string
and a judge backend that always fails, the outcome is still Pass — no judge
call was made. -/
theorem validate_each_sentence_empty_input_witness :
    (fun (_ : Str) => ([] : List Str)) "".data = [] ∧
      validate_each_sentence llmDown okQuery (fun _ => []) "".data (0 : Nat)
        = .ok (.PassResult 0) :=
  ⟨rfl, validate_each_sentence_empty_input llmDown okQuery (fun _ => []) 0 rfl⟩

/- ------------------------------------------------------------------ -/
/- Sentence mode aggregation (C1)                                     -/
/- ------------------------------------------------------------------ -/

lemma sentenceLoop_spec (ge : Str → Except PyError Str) (sentences : List Str)
    (h : ∀ s ∈ sentences, ∃ v, ge s = .ok v) :
    ∀ (unsupported supported : List Str),
      sentenceLoop ge sentences unsupported supported =
        .ok (unsupported ++ sentences.filter (fun s => !isYes (ge s)),
             supported ++ sentences.filter (fun s => isYes (ge s))) := by
  induction sentences with
  | nil => intro uns sup; simp [sentenceLoop]
  | cons s rest ih =>
    intro uns sup
    obtain ⟨v, hv⟩ := h s (List.mem_cons_self _ _)
    have hrest : ∀ x ∈ rest, ∃ v, ge x = .ok v :=
      fun x hx => h x (List.mem_cons_of_mem _ hx)
    by_cases hy : v = "yes".data
    · subst hy
      have hb : isYes (Except.ok "yes".data) = true := by decide
      simp [sentenceLoop, hv, ih hrest, List.filter_cons, hb, List.append_assoc]
    · have hb : isYes (Except.ok v) = false := by simp [isYes, hy]
      simp [sentenceLoop, hv, hy, ih hrest, List.filter_cons, hb, List.append_assoc]

/-- C1 claim.  In sentence mode, for every input, tokenizer, judge backend
and index oracle such that every sentence is judged without an exception:
each sentence is judged independently; if any sentence is unsupported the
outcome is a `FailResult` whose error message enumerates exactly the
unsupported sentences as a bulleted list in original input order and whose
fix value is exactly the supported sentences rejoined by newlines in their
original relative order; if no sentence is unsupported the outcome is
`PassResult`. -/
theorem validate_each_sentence_spec {M : Type} (llm : Str → Except Str Str)
    (query : List Str → Nat → QueryResult) (sent_tokenize : Str → List Str)
    (value : Str) (metadata : M)
    (h : ∀ s ∈ sent_tokenize value, ∃ v, get_evaluation llm query s = .ok v) :
    validate_each_sentence llm query sent_tokenize value metadata =
      (if (sent_tokenize value).filter
          (fun s => !isYes (get_evaluation llm query s)) = [] then
        .ok (.PassResult metadata)
      else
        .ok (.FailResult metadata
          ("None of the following sentences in the response are supported by the provided context:".data
            ++ '\n' :: ("- ".data
              ++ joinWith "\n- ".data
                ((sent_tokenize value).filter
                  (fun s => !isYes (get_evaluation llm query s)))))
          (joinWith ['\n']
            ((sent_tokenize value).filter
              (fun s => isYes (get_evaluation llm query s)))))) := by
  rw [validate_each_sentence,
    sentenceLoop_spec (get_evaluation llm query) (sent_tokenize value) h [] []]
  simp only [List.nil_append]
  by_cases hc : (sent_tokenize value).filter
      (fun s => !isYes (get_evaluation llm query s)) = []
  · simp [hc]
  · simp [hc]

/-- C1 witness: one sentence `"a"`, a judge that always answers `"no"`:
the outcome is a Fail whose message lists `"a"` as a bullet and whose fix
value is empty. -/
theorem validate_each_sentence_spec_witness :
    (∀ s ∈ (["a".data] : List Str), ∃ v,
        get_evaluation (llmConst "no".data) okQuery s = .ok v) ∧
      validate_each_sentence (llmConst "no".data) okQuery (fun _ => ["a".data])
          "a".data (0 : Nat)
        = .ok (.FailResult 0
            "None of the following sentences in the response are supported by the provided context:\n- a".data
            []) :=
  ⟨fun _ _ => ⟨"no".data, rfl⟩,
    by
      rw [validate_each_sentence_spec (llmConst "no".data) okQuery
        (fun _ => ["a".data]) "a".data (0 : Nat) (fun _ _ => ⟨"no".data, rfl⟩)]
      decide⟩

/- ------------------------------------------------------------------ -/
/- Judge response normalization (C2)                                  -/
/- ------------------------------------------------------------------ -/

/-- C2 claim.  For every judge backend response (given any retrieval oracle
for which chunk retrieval succeeds), the evaluation result is computed from
the response text by trimming whitespace and lowercasing; the responses
`" Yes \n"`, `"YES"` and `"yes"` all yield the same verdict `"yes"`; and any
normalized response other than exactly `"yes"` or `"no"` (e.g. `"maybe"`)
raises the malformed-response `ValueError` instead of being coerced or
defaulted. -/
theorem get_evaluation_normalization_spec (query : List Str → Nat → QueryResult)
    (response : Str) (chunks : List Str)
    (h : get_closest_chunks query response = .ok chunks) :
    (∀ resp : Str,
      get_evaluation (llmConst resp) query response =
        (if pyLower (pyStrip resp) ≠ "yes".data ∧ pyLower (pyStrip resp) ≠ "no".data then
          .error (.valueError "Received an invalid evaluation response from the LLM.".data)
        else .ok (pyLower (pyStrip resp)))) ∧
      get_evaluation (llmConst " Yes \n".data) query response = .ok "yes".data ∧
      get_evaluation (llmConst "YES".data) query response = .ok "yes".data ∧
      get_evaluation (llmConst "yes".data) query response = .ok "yes".data ∧
      get_evaluation (llmConst "maybe".data) query response
        = .error (.valueError "Received an invalid evaluation response from the LLM.".data) := by
  have hgen : ∀ resp : Str,
      get_evaluation (llmConst resp) query response =
        (if pyLower (pyStrip resp) ≠ "yes".data ∧ pyLower (pyStrip resp) ≠ "no".data then
          .error (.valueError "Received an invalid evaluation response from the LLM.".data)
        else .ok (pyLower (pyStrip resp))) := by
    intro resp
    simp only [get_evaluation, h, llmConst]
  refine ⟨hgen, ?_, ?_, ?_, ?_⟩
  · rw [hgen]; decide
  · rw [hgen]; decide
  · rw [hgen]; decide
  · rw [hgen]; decide

/-- C2 witness: with the trivial index oracle (whose retrieval succeeds with
an empty chunk list), the three affirmative spellings map to the verdict
`"yes"` and `"maybe"` raises the malformed-response error. -/
theorem get_evaluation_normalization_spec_witness :
    get_closest_chunks okQuery "x".data = .ok [] ∧
      get_evaluation (llmConst " Yes \n".data) okQuery "x".data = .ok "yes".data ∧
      get_evaluation (llmConst "maybe".data) okQuery "x".data
        = .error (.valueError "Received an invalid evaluation response from the LLM.".data) :=
  ⟨rfl,
    (get_evaluation_normalization_spec okQuery "x".data [] rfl).2.1,
    (get_evaluation_normalization_spec okQuery "x".data [] rfl).2.2.2.2⟩

/- ------------------------------------------------------------------ -/
/- Invalid validation method (C9)                                     -/
/- ------------------------------------------------------------------ -/

/-- C9 claim.  Calling `validate` with a `validation_method` that is neither
`"sentence"` nor `"full"` yields the configuration `ValueError`; its message
contains the invalid mode and both valid option names; and neither mode path
is executed — the result is the same for every judge backend, index oracle
and tokenizer. -/
theorem validate_invalid_method_spec {M : Type}
    (llm llm2 : Str → Except Str Str) (query query2 : List Str → Nat → QueryResult)
    (sent_tokenize sent_tokenize2 : Str → List Str)
    (validation_method value : Str) (metadata : M)
    (h1 : validation_method ≠ "sentence".data)
    (h2 : validation_method ≠ "full".data) :
    validate llm query sent_tokenize validation_method value metadata
        = .error (.valueError (invalidMethodMsg validation_method)) ∧
      (∃ s t, invalidMethodMsg validation_method = s ++ validation_method ++ t) ∧
      (∃ s t, invalidMethodMsg validation_method = s ++ "sentence".data ++ t) ∧
      (∃ s t, invalidMethodMsg validation_method = s ++ "full".data ++ t) ∧
      validate llm query sent_tokenize validation_method value metadata
        = validate llm2 query2 sent_tokenize2 validation_method value metadata := by
  refine ⟨by simp [validate, h1, h2], ?_, ?_, ?_, by simp [validate, h1, h2]⟩
  · exact ⟨"Validation method ".data,
      " is not supported.".data ++ "Please use either \x27sentence\x27 or \x27full\x27.".data,
      by simp [invalidMethodMsg, List.append_assoc]⟩
  · refine ⟨"Validation method ".data ++ validation_method
        ++ " is not supported.Please use either \x27".data,
      "\x27 or \x27full\x27.".data, ?_⟩
    have hc : " is not supported.".data
          ++ "Please use either \x27sentence\x27 or \x27full\x27.".data
        = " is not supported.Please use either \x27".data
          ++ ("sentence".data ++ "\x27 or \x27full\x27.".data) := by decide
    simp only [invalidMethodMsg, List.append_assoc]
    rw [hc]
  · refine ⟨"Validation method ".data ++ validation_method
        ++ " is not supported.Please use either \x27sentence\x27 or \x27".data,
      "\x27.".data, ?_⟩
    have hc : " is not supported.".data
          ++ "Please use either \x27sentence\x27 or \x27full\x27.".data
        = " is not supported.Please use either \x27sentence\x27 or \x27".data
          ++ ("full".data ++ "\x27.".data) := by decide
    simp only [invalidMethodMsg, List.append_assoc]
    rw [hc]

/-- C9 witness: the invalid mode `"paragraph"` yields the configuration
error. -/
theorem validate_invalid_method_spec_witness :
    "paragraph".data ≠ "sentence".data ∧ "paragraph".data ≠ "full".data ∧
      validate llmDown okQuery (fun _ => []) "paragraph".data "x".data (0 : Nat)
        = .error (.valueError (invalidMethodMsg "paragraph".data)) :=
  ⟨by decide, by decide,
    (validate_invalid_method_spec llmDown llmDown okQuery okQuery (fun _ => [])
      (fun _ => []) "paragraph".data "x".data 0 (by decide) (by decide)).1⟩

/- ------------------------------------------------------------------ -/
/- Corpus fetcher resolution (C4) and unguarded second fetch (C10)    -/
/- ------------------------------------------------------------------ -/

lemma wikiPageLoop_find (fetch : Str → FetchOutcome) (cands : List Str) :
    wikiPageLoop fetch cands =
      match cands.find? (fun c => !isPageErrorOutcome (fetch c)) with
      | none => .ok (none, [])
      | some c =>
        match fetch c with
        | .page p => .ok (some p, [])
        | .disambiguation [] => .error .indexError
        | .disambiguation (o :: _) =>
          match fetch o with
          | .page p => .ok (some p, [disambigWarning o])
          | .disambiguation os => .error (.disambiguationError os)
          | .pageError => .error .pageError
        | .pageError => .ok (none, []) := by
  induction cands with
  | nil => rfl
  | cons c rest ih =>
    cases hf : fetch c with
    | page p =>
      have hp : (fun x => !isPageErrorOutcome (fetch x)) c = true := by
        simp [hf, isPageErrorOutcome]
      rw [List.find?_cons_of_pos (p := fun x => !isPageErrorOutcome (fetch x)) _ hp]
      simp [wikiPageLoop, hf]
    | disambiguation options =>
      have hp : (fun x => !isPageErrorOutcome (fetch x)) c = true := by
        simp [hf, isPageErrorOutcome]
      rw [List.find?_cons_of_pos (p := fun x => !isPageErrorOutcome (fetch x)) _ hp]
      cases options with
      | nil => simp [wikiPageLoop, hf]
      | cons o os => simp [wikiPageLoop, hf]
    | pageError =>
      have hp : ¬ (fun x => !isPageErrorOutcome (fetch x)) c = true := by
        simp [hf, isPageErrorOutcome]
      rw [List.find?_cons_of_neg (p := fun x => !isPageErrorOutcome (fetch x)) _ hp]
      simp [wikiPageLoop, hf, ih]

/-- C4 claim.  `fetchReference` requests up to 3 candidate titles
(`search topic_name 3`) and resolves them in ranked order: candidates whose
fetch reports `PageError` are skipped; the first candidate whose fetch does
not report `PageError` decides the outcome — a page is returned immediately
with no warning; a disambiguation is resolved by fetching its first option,
returning that page together with the warning naming the choice (an empty
option list raises `IndexError`; a failing second fetch propagates); and if
every candidate reports `PageError` (or there are none), the fetch fails
with the `RuntimeError` naming the topic. -/
theorem get_wiki_page_resolution_spec (search : Str → Nat → List Str)
    (fetch : Str → FetchOutcome) (topic_name : Str) :
    get_wiki_page search fetch topic_name =
      match (search topic_name 3).find? (fun c => !isPageErrorOutcome (fetch c)) with
      | none => .error (.runtimeError (wikiNotFoundMsg topic_name))
      | some c =>
        match fetch c with
        | .page p => .ok (p, [])
        | .disambiguation [] => .error .indexError
        | .disambiguation (o :: _) =>
          match fetch o with
          | .page q => .ok (q, [disambigWarning o])
          | .disambiguation os => .error (.disambiguationError os)
          | .pageError => .error .pageError
        | .pageError => .error (.runtimeError (wikiNotFoundMsg topic_name)) := by
  simp only [get_wiki_page, wikiPageLoop_find]
  cases hfind : (search topic_name 3).find? (fun c => !isPageErrorOutcome (fetch c)) with
  | none => rfl
  | some c =>
    have hc := List.find?_some hfind
    cases hf : fetch c with
    | page p => simp [hf]
    | disambiguation options =>
      cases options with
      | nil => simp [hf]
      | cons o os =>
        cases hfo : fetch o with
        | page q => simp [hf, hfo]
        | disambiguation os2 => simp [hf, hfo]
        | pageError => simp [hf, hfo]
    | pageError =>
      rw [hf] at hc
      simp [isPageErrorOutcome] at hc

/-- C10 claim.  The second fetch performed to resolve a disambiguation is not
guarded: when the first non-`PageError` candidate reports a disambiguation
and the fetch of its first option itself reports `PageError` or another
disambiguation, that exception propagates out of `get_wiki_page` — the loop
does not fall through to the remaining ranked candidates. -/
theorem get_wiki_page_disambiguation_unguarded (search : Str → Nat → List Str)
    (fetch : Str → FetchOutcome) (topic_name c o : Str) (os : List Str)
    (h1 : (search topic_name 3).find? (fun x => !isPageErrorOutcome (fetch x)) = some c)
    (h2 : fetch c = .disambiguation (o :: os)) :
    (fetch o = .pageError →
      get_wiki_page search fetch topic_name = .error .pageError) ∧
    ∀ os2, fetch o = .disambiguation os2 →
      get_wiki_page search fetch topic_name = .error (.disambiguationError os2) := by
  constructor
  · intro ho
    simp [get_wiki_page, wikiPageLoop_find, h1, h2, ho]
  · intro os2 ho
    simp [get_wiki_page, wikiPageLoop_find, h1, h2, ho]

/-- C10 witness: candidate `"A"` disambiguates to option `"X"` whose fetch
reports `PageError`; the error propagates even though candidate `"B"` would
have fetched a page. -/
theorem get_wiki_page_disambiguation_unguarded_witness :
    (searchW "t".data 3).find? (fun x => !isPageErrorOutcome (fetchW x))
        = some "A".data ∧
      fetchW "A".data = .disambiguation ("X".data :: []) ∧
      get_wiki_page searchW fetchW "t".data = .error .pageError :=
  ⟨by decide, by decide,
    (get_wiki_page_disambiguation_unguarded searchW fetchW "t".data "A".data
      "X".data [] (by decide) (by decide)).1 (by decide)⟩

end WikiProv
